import Mathlib

/-!
Verification of the `j5e` LED device / timed-animation engine
(`src/dist/moddable/gps/gps.js`, `Led` class) against its specification.

The JavaScript class is shallowly embedded as pure Lean functions over an
explicit machine state.  JavaScript numbers are modelled as rationals `ℚ`
(every value produced here is rational arithmetic on rationals; no NaN or
infinity arises on the modelled paths), and the integer coercions `| 0`
and `^` are modelled bit-faithfully as `ToInt32` truncation/wrapping.

The timer facility (`timer.setInterval` / `timer.clearInterval`, imported
by the source from the util module which is outside the sources) is
modelled from the spec, section 4.4: schedule-repeating / cancel semantics,
cancel on an unknown handle a no-op, callbacks strictly sequential on the
cooperative scheduler.  The machine state carries the set of scheduled
timers; `fireTimer` delivers one tick of the (single) active timer.
-/

set_option linter.unusedVariables false

attribute [local semireducible] Rat.mul Rat.inv Rat.add Rat.sub

/-- Modelled from the spec: the value clamp utility `constrain` of the util
module (`util/fn.js`), which is not among the sources.  Spec section 4.3:
"returns `low` if `value < low`, `high` if `value > high`, else `value`". -/
def constrain (value low high : ℚ) : ℚ :=
  if value < low then low else if value > high then high else value

/-- JavaScript truncation toward zero (the first half of `ToInt32`). -/
def truncQ (q : ℚ) : ℤ :=
  if q < 0 then -Int.floor (-q) else Int.floor q

/-- JavaScript `ToInt32` as used by `value | 0` and `^`: truncate toward
zero, then wrap into `[-2^31, 2^31)`. -/
def jsToInt32 (q : ℚ) : ℤ :=
  Int.bmod (truncQ q) (2 ^ 32)

/-- JavaScript 32-bit `^` (xor) on two already-converted int32 values:
reinterpret both as 32-bit two's-complement bit patterns, xor, convert
back to a signed int32. -/
def jsXor (a b : ℤ) : ℤ :=
  Int.bmod ((Nat.xor (a.emod (2 ^ 32)).toNat (b.emod (2 ^ 32)).toNat : ℕ) : ℤ) (2 ^ 32)

/-- The private `#state` record of the `Led` class.  `interval` holds the
handle of the timer scheduled by `blink`/`animate` (`null` = `none`). -/
structure LedState where
  sink : Bool
  isRunning : Bool
  value : ℚ
  direction : ℤ
  mode : Option ℕ
  interval : Option ℕ
deriving DecidableEq, Repr

/-- The body of an animation descriptor's closures.  The source's `fade`
and `pulse` each hand `animate` a `step`/`complete` pair of closures; these
are first-order data here, interpreted by `runTimer`.  Neither passes
`opts.delta`, so the delta function is always `animate`'s identity default. -/
inductive AnimBody where
  /-- `fade`'s closures: captured `previous`, `update`, and whether a user
  callback was supplied. -/
  | fadeB (previous update : ℚ) (hasCallback : Bool)
  /-- `pulse`'s closures: captured `update`, `direction`, `time`, and
  whether a user callback was supplied. -/
  | pulseB (update : ℚ) (direction : ℤ) (time : ℚ) (hasCallback : Bool)
deriving DecidableEq, Repr

/-- The callback scheduled with a timer: either `blink`'s raw toggle
closure or `animate`'s progress-based tick closure (capturing the start
timestamp and the resolved duration). -/
inductive TimerProg where
  | blinkT (hasCallback : Bool)
  | animT (start duration : ℚ) (body : AnimBody)
deriving DecidableEq, Repr

/-- One scheduled repeating timer of the timer facility. -/
structure ActiveTimer where
  id : ℕ
  delay : ℚ
  prog : TimerProg
deriving DecidableEq, Repr

/-- The whole world of one `Led` instance: the immutable `HIGH` derived at
construction, the private state, the timer facility's scheduled timers and
fresh-handle counter, the clock, the values handed to the provider's
`write` (most recent first), and instrumentation counters for `step`,
`complete` and user-callback invocations. -/
structure Machine where
  high : ℕ
  state : LedState
  timers : List ActiveTimer
  nextId : ℕ
  now : ℚ
  writes : List ℚ
  stepCount : ℕ
  completeCount : ℕ
  callbackCount : ℕ
deriving DecidableEq, Repr

/-- `timer.setInterval(cb, delay)`: schedule a fresh repeating timer,
returning the machine and the new handle. -/
def setIntervalM (m : Machine) (delay : ℚ) (p : TimerProg) : Machine × ℕ :=
  ({ m with timers := m.timers ++ [⟨m.nextId, delay, p⟩], nextId := m.nextId + 1 },
   m.nextId)

/-- `timer.clearInterval(handle)` on the handle stored in `#state.interval`
when that field is truthy (the guard used by both `animate` and `stop`);
clearing an unknown handle is a no-op. -/
def clearIntervalIfSet (m : Machine) : Machine :=
  match m.state.interval with
  | none => m
  | some h => { m with timers := m.timers.filter (fun t => t.id != h) }

/-- The value `Led.write` hands to the provider, as a function of the
current state: clamp to `[LOW, HIGH]`, invert when sink-wired, then `| 0`. -/
def writeValue (m : Machine) : ℚ :=
  let v := constrain m.state.value 0 (m.high : ℚ)
  let v := if m.state.sink then (m.high : ℚ) - v else v
  ((jsToInt32 v : ℤ) : ℚ)

/-- `Led.write()`: hand the (clamped, possibly inverted, truncated) current
value to the provider. -/
def Led.write (m : Machine) : Machine :=
  { m with writes := writeValue m :: m.writes }

/-- `Led.on()`: set the value to `HIGH` and write. -/
def Led.on (m : Machine) : Machine :=
  Led.write { m with state.value := (m.high : ℚ) }

/-- `Led.off()`: set the value to `LOW` (0) and write. -/
def Led.off (m : Machine) : Machine :=
  Led.write { m with state.value := 0 }

/-- The `isOn` getter: `!!this.#state.value`. -/
def Led.isOn (m : Machine) : Bool :=
  decide (m.state.value ≠ 0)

/-- `Led.toggle()`: `this[this.isOn ? "off" : "on"]()`. -/
def Led.toggle (m : Machine) : Machine :=
  if Led.isOn m then Led.off m else Led.on m

/-- `Led.brightness(value)`: store the raw value and hand it directly to
the provider (`this.io.write(value)` — not `this.write()`). -/
def Led.brightness (m : Machine) (value : ℚ) : Machine :=
  { m with state.value := value, writes := value :: m.writes }

/-- `Led.stop()`: clear the active interval if any, null the handle, clear
`isRunning`. -/
def Led.stop (m : Machine) : Machine :=
  let m := clearIntervalIfSet m
  { m with state.interval := none, state.isRunning := false }

/-- `Led.blink(duration, callback)`, numeric-duration path: stop any prior
animation, mark running, schedule the toggle closure every `duration` ms.
(The source shifts a function first argument into `callback` with
`duration = 100`; that path is `Led.blink m 100 true`.)  No validation of
`duration` is performed. -/
def Led.blink (m : Machine) (duration : ℚ) (cb : Bool) : Machine :=
  let m := Led.stop m
  let m := { m with state.isRunning := true }
  let p := setIntervalM m duration (.blinkT cb)
  { p.1 with state.interval := some p.2 }

/-- `Led.animate(opts)`: record the start timestamp, clear a prior interval
if the handle is set (without nulling the handle field), default a falsy
duration to 1000, mark running, and schedule the tick closure every 10 ms
(`opts.delay` is never passed by `fade`/`pulse`). -/
def Led.animate (m : Machine) (duration : ℚ) (body : AnimBody) : Machine :=
  let start := m.now
  let m := clearIntervalIfSet m
  let dur := if duration = 0 then 1000 else duration
  let m := { m with state.isRunning := true }
  let p := setIntervalM m 10 (.animT start dur body)
  { p.1 with state.interval := some p.2 }

/-- `Led.fade(val, time, callback)`, numeric-time path: capture `previous`
(`this.#state.value || 0`, the identity on rationals) and
`update = val - value`, then animate. -/
def Led.fade (m : Machine) (val time : ℚ) (cb : Bool) : Machine :=
  let previous := m.state.value
  let update := val - m.state.value
  Led.animate m time (.fadeB previous update cb)

/-- `Led.fadeIn(time, callback)`: fade to `HIGH`. -/
def Led.fadeIn (m : Machine) (time : ℚ) (cb : Bool) : Machine :=
  Led.fade m (m.high : ℚ) time cb

/-- `Led.fadeOut(time, callback)`: fade to `LOW`. -/
def Led.fadeOut (m : Machine) (time : ℚ) (cb : Bool) : Machine :=
  Led.fade m 0 time cb

/-- `pulse`'s target computation:
`value !== 0 ? (value === HIGH ? 0 : HIGH) : HIGH`. -/
def pulseTargetV (value high : ℚ) : ℚ :=
  if value ≠ 0 then (if value = high then 0 else high) else high

/-- `pulse`'s target from the machine state. -/
def Led.pulseTarget (m : Machine) : ℚ :=
  pulseTargetV m.state.value (m.high : ℚ)

/-- `pulse`'s direction: `target === HIGH ? 1 : -1`. -/
def Led.pulseDirection (m : Machine) : ℤ :=
  if Led.pulseTarget m = (m.high : ℚ) then 1 else -1

/-- `pulse`'s update: `value <= target ? target : value - target`. -/
def Led.pulseUpdate (m : Machine) : ℚ :=
  if m.state.value ≤ Led.pulseTarget m then Led.pulseTarget m
  else m.state.value - Led.pulseTarget m

/-- `Led.pulse(time, callback)`, numeric-time path: derive target,
direction and update from the current value, then animate with the pulse
step/complete closures. -/
def Led.pulse (m : Machine) (time : ℚ) (cb : Bool) : Machine :=
  Led.animate m time (.pulseB (Led.pulseUpdate m) (Led.pulseDirection m) time cb)

/-- `fade`'s step closure: `value = previous + update * delta`, then write. -/
def runStepFade (m : Machine) (previous update delta : ℚ) : Machine :=
  Led.write { m with state.value := previous + update * delta }

/-- `pulse`'s step closure: `value = update * delta`, xor'd with `HIGH`
when the direction is `-1` (a 32-bit integer xor), record the direction,
then write. -/
def runStepPulse (m : Machine) (update : ℚ) (dir : ℤ) (delta : ℚ) : Machine :=
  let v := update * delta
  let v := if dir = -1 then ((jsXor (jsToInt32 v) (jsToInt32 ((m.high : ℕ) : ℚ)) : ℤ) : ℚ) else v
  Led.write { m with state.value := v, state.direction := dir }

/-- The `complete` closure of an animation: `fade`'s invokes the user
callback if present; `pulse`'s re-invokes `pulse` with the same `time`,
then invokes the user callback if present.  `completeCount` counts the
engine's invocations of `opts.complete`. -/
def runComplete (m : Machine) (body : AnimBody) : Machine :=
  match body with
  | .fadeB _ _ cb =>
    let m := { m with completeCount := m.completeCount + 1 }
    if cb then { m with callbackCount := m.callbackCount + 1 } else m
  | .pulseB _ _ time cb =>
    let m := { m with completeCount := m.completeCount + 1 }
    let m := Led.pulse m time cb
    if cb then { m with callbackCount := m.callbackCount + 1 } else m

/-- `animate`'s progress computation on one tick:
`progress = lapsed / duration`, capped at 1. -/
def progressOf (lapsed duration : ℚ) : ℚ :=
  let p := lapsed / duration
  if p > 1 then 1 else p

/-- Deliver one tick of the timer `t`: the clock advances by the timer's
delay, then the scheduled closure runs.  The timer itself stays scheduled
(`setInterval` repeats); only `clearInterval` removes it. -/
def runTimer (m : Machine) (t : ActiveTimer) : Machine :=
  let m := { m with now := m.now + t.delay }
  match t.prog with
  | .blinkT cb =>
    let m := Led.toggle m
    if cb then { m with callbackCount := m.callbackCount + 1 } else m
  | .animT start dur body =>
    let lapsed := m.now - start
    let progress := progressOf lapsed dur
    let m := { m with stepCount := m.stepCount + 1 }
    let m :=
      match body with
      | .fadeB prev upd _ => runStepFade m prev upd progress
      | .pulseB upd dir _ _ => runStepPulse m upd dir progress
    if progress = 1 then runComplete m body else m

/-- Deliver one tick of the active timer, if any (there is at most one;
see `LedInv`). -/
def fireTimer (m : Machine) : Machine :=
  match m.timers with
  | [] => m
  | t :: _ => runTimer m t

/-- The machine right after a successful construction: `LOW = 0`,
`value = 0`, `direction = 1`, `mode = null`, no timer, clock at 0. -/
def initMachine (high : ℕ) (sink : Bool) : Machine :=
  { high := high
    state := { sink := sink, isRunning := false, value := 0, direction := 1,
               mode := none, interval := none }
    timers := []
    nextId := 0
    now := 0
    writes := []
    stepCount := 0
    completeCount := 0
    callbackCount := 0 }

/-- The reachable-state relation: a machine obtained from a fresh
construction by any sequence of public operations and timer ticks. -/
inductive Reach : Machine → Prop where
  | init (high : ℕ) (sink : Bool) : Reach (initMachine high sink)
  | on_ {m} : Reach m → Reach (Led.on m)
  | off_ {m} : Reach m → Reach (Led.off m)
  | toggle_ {m} : Reach m → Reach (Led.toggle m)
  | brightness_ {m} (v : ℚ) : Reach m → Reach (Led.brightness m v)
  | blink_ {m} (d : ℚ) (cb : Bool) : Reach m → Reach (Led.blink m d cb)
  | fade_ {m} (v t : ℚ) (cb : Bool) : Reach m → Reach (Led.fade m v t cb)
  | fadeIn_ {m} (t : ℚ) (cb : Bool) : Reach m → Reach (Led.fadeIn m t cb)
  | fadeOut_ {m} (t : ℚ) (cb : Bool) : Reach m → Reach (Led.fadeOut m t cb)
  | pulse_ {m} (t : ℚ) (cb : Bool) : Reach m → Reach (Led.pulse m t cb)
  | stop_ {m} : Reach m → Reach (Led.stop m)
  | tick {m} : Reach m → Reach (fireTimer m)

/-- The timer-bookkeeping invariant of an `Led` instance: every scheduled
timer's handle is below the facility's fresh counter, and either nothing is
running (no handle, no timer), or exactly one timer is scheduled and its
handle is the one stored in `#state.interval`. -/
def LedInv (m : Machine) : Prop :=
  (∀ t ∈ m.timers, t.id < m.nextId) ∧
  ((m.state.interval = none ∧ m.state.isRunning = false ∧ m.timers = []) ∨
   (∃ h t, m.state.interval = some h ∧ m.state.isRunning = true ∧
     m.timers = [t] ∧ t.id = h))

theorem inv_of_eq {m m' : Machine} (h1 : m'.timers = m.timers)
    (h2 : m'.state.interval = m.state.interval)
    (h3 : m'.state.isRunning = m.state.isRunning)
    (h4 : m'.nextId = m.nextId) (h : LedInv m) : LedInv m' := by
  unfold LedInv
  rw [h1, h2, h3, h4]
  exact h

theorem inv_write {m : Machine} (h : LedInv m) : LedInv (Led.write m) :=
  inv_of_eq rfl rfl rfl rfl h

theorem inv_on {m : Machine} (h : LedInv m) : LedInv (Led.on m) :=
  inv_of_eq rfl rfl rfl rfl h

theorem inv_off {m : Machine} (h : LedInv m) : LedInv (Led.off m) :=
  inv_of_eq rfl rfl rfl rfl h

theorem inv_toggle {m : Machine} (h : LedInv m) : LedInv (Led.toggle m) := by
  unfold Led.toggle
  split
  · exact inv_off h
  · exact inv_on h

theorem inv_brightness {m : Machine} (v : ℚ) (h : LedInv m) :
    LedInv (Led.brightness m v) :=
  inv_of_eq rfl rfl rfl rfl h

/-- After clearing the tracked interval, no timer remains scheduled. -/
theorem timers_clearIntervalIfSet {m : Machine} (h : LedInv m) :
    (clearIntervalIfSet m).timers = [] ∧
    (clearIntervalIfSet m).state = m.state ∧
    (clearIntervalIfSet m).nextId = m.nextId := by
  rcases h.2 with ⟨hi, _, ht⟩ | ⟨hh, t, hi, _, ht, hid⟩
  · unfold clearIntervalIfSet
    rw [hi]
    exact ⟨ht, rfl, rfl⟩
  · unfold clearIntervalIfSet
    rw [hi]
    refine ⟨?_, rfl, rfl⟩
    simp [ht, hid]

theorem inv_stop {m : Machine} (h : LedInv m) : LedInv (Led.stop m) := by
  obtain ⟨ht, hs, hn⟩ := timers_clearIntervalIfSet h
  unfold Led.stop
  refine ⟨?_, Or.inl ⟨rfl, rfl, ht⟩⟩
  intro t htt
  rw [show ({ clearIntervalIfSet m with
        state.interval := none, state.isRunning := false } : Machine).timers
      = (clearIntervalIfSet m).timers from rfl, ht] at htt
  cases htt

theorem inv_blink {m : Machine} (d : ℚ) (cb : Bool) (h : LedInv m) :
    LedInv (Led.blink m d cb) := by
  obtain ⟨ht, hs, hn⟩ := timers_clearIntervalIfSet h
  have htimers : (Led.blink m d cb).timers
      = [⟨(clearIntervalIfSet m).nextId, d, .blinkT cb⟩] := by
    simp only [Led.blink, Led.stop, setIntervalM]
    rw [show (({ clearIntervalIfSet m with
          state.interval := none, state.isRunning := false } : Machine)).timers
        = (clearIntervalIfSet m).timers from rfl, ht]
    rfl
  constructor
  · intro t htt
    rw [htimers] at htt
    simp at htt
    subst htt
    exact Nat.lt_succ_self _
  · exact Or.inr ⟨(clearIntervalIfSet m).nextId,
      ⟨(clearIntervalIfSet m).nextId, d, .blinkT cb⟩, rfl, rfl, htimers, rfl⟩

theorem inv_animate {m : Machine} (dur : ℚ) (body : AnimBody) (h : LedInv m) :
    LedInv (Led.animate m dur body) := by
  obtain ⟨ht, hs, hn⟩ := timers_clearIntervalIfSet h
  have htimers : (Led.animate m dur body).timers
      = [⟨(clearIntervalIfSet m).nextId, 10,
          .animT m.now (if dur = 0 then 1000 else dur) body⟩] := by
    simp only [Led.animate, setIntervalM]
    rw [ht]
    rfl
  constructor
  · intro t htt
    rw [htimers] at htt
    simp at htt
    subst htt
    exact Nat.lt_succ_self _
  · exact Or.inr ⟨(clearIntervalIfSet m).nextId,
      ⟨(clearIntervalIfSet m).nextId, 10,
        .animT m.now (if dur = 0 then 1000 else dur) body⟩, rfl, rfl, htimers, rfl⟩

theorem inv_fade {m : Machine} (v t : ℚ) (cb : Bool) (h : LedInv m) :
    LedInv (Led.fade m v t cb) :=
  inv_animate _ _ h

theorem inv_fadeIn {m : Machine} (t : ℚ) (cb : Bool) (h : LedInv m) :
    LedInv (Led.fadeIn m t cb) :=
  inv_animate _ _ h

theorem inv_fadeOut {m : Machine} (t : ℚ) (cb : Bool) (h : LedInv m) :
    LedInv (Led.fadeOut m t cb) :=
  inv_animate _ _ h

theorem inv_pulse {m : Machine} (t : ℚ) (cb : Bool) (h : LedInv m) :
    LedInv (Led.pulse m t cb) :=
  inv_animate _ _ h

theorem inv_runStepFade {m : Machine} (p u d : ℚ) (h : LedInv m) :
    LedInv (runStepFade m p u d) :=
  inv_of_eq rfl rfl rfl rfl h

theorem inv_runStepPulse {m : Machine} (u : ℚ) (dir : ℤ) (d : ℚ) (h : LedInv m) :
    LedInv (runStepPulse m u dir d) :=
  inv_of_eq rfl rfl rfl rfl h

theorem inv_runComplete {m : Machine} (body : AnimBody) (h : LedInv m) :
    LedInv (runComplete m body) := by
  cases body with
  | fadeB p u cb =>
    cases cb with
    | false => exact inv_of_eq rfl rfl rfl rfl h
    | true => exact inv_of_eq rfl rfl rfl rfl h
  | pulseB u dir time cb =>
    cases cb with
    | false => exact inv_pulse _ _ (inv_of_eq rfl rfl rfl rfl h)
    | true =>
      exact inv_of_eq rfl rfl rfl rfl (inv_pulse _ _ (inv_of_eq rfl rfl rfl rfl h))

theorem inv_runTimer {m : Machine} (t : ActiveTimer) (h : LedInv m) :
    LedInv (runTimer m t) := by
  obtain ⟨tid, tdelay, tprog⟩ := t
  have hbase : LedInv ({ m with now := m.now + tdelay } : Machine) :=
    inv_of_eq rfl rfl rfl rfl h
  cases tprog with
  | blinkT cb =>
    cases cb with
    | false => exact inv_toggle hbase
    | true => exact inv_of_eq rfl rfl rfl rfl (inv_toggle hbase)
  | animT start dur body =>
    have h2 : LedInv ({ m with now := m.now + tdelay, stepCount := m.stepCount + 1 } : Machine) :=
      inv_of_eq rfl rfl rfl rfl h
    cases body with
    | fadeB p u cb =>
      have h3 := inv_runStepFade
        (m := { m with now := m.now + tdelay, stepCount := m.stepCount + 1 }) p u
        (progressOf (m.now + tdelay - start) dur) h2
      show LedInv (if progressOf (m.now + tdelay - start) dur = 1 then _ else _)
      split
      · exact inv_runComplete _ h3
      · exact h3
    | pulseB u dir time cb =>
      have h3 := inv_runStepPulse
        (m := { m with now := m.now + tdelay, stepCount := m.stepCount + 1 }) u dir
        (progressOf (m.now + tdelay - start) dur) h2
      show LedInv (if progressOf (m.now + tdelay - start) dur = 1 then _ else _)
      split
      · exact inv_runComplete _ h3
      · exact h3

theorem inv_fireTimer {m : Machine} (h : LedInv m) : LedInv (fireTimer m) := by
  unfold fireTimer
  split
  · exact h
  · exact inv_runTimer _ h

theorem inv_init (high : ℕ) (sink : Bool) : LedInv (initMachine high sink) := by
  constructor
  · intro t ht
    cases ht
  · exact Or.inl ⟨rfl, rfl, rfl⟩

/-- Every reachable machine satisfies the timer-bookkeeping invariant. -/
theorem inv_reach {m : Machine} (h : Reach m) : LedInv m := by
  induction h with
  | init high sink => exact inv_init high sink
  | on_ _ ih => exact inv_on ih
  | off_ _ ih => exact inv_off ih
  | toggle_ _ ih => exact inv_toggle ih
  | brightness_ v _ ih => exact inv_brightness v ih
  | blink_ d cb _ ih => exact inv_blink d cb ih
  | fade_ v t cb _ ih => exact inv_fade v t cb ih
  | fadeIn_ t cb _ ih => exact inv_fadeIn t cb ih
  | fadeOut_ t cb _ ih => exact inv_fadeOut t cb ih
  | pulse_ t cb _ ih => exact inv_pulse t cb ih
  | stop_ _ ih => exact inv_stop ih
  | tick _ ih => exact inv_fireTimer ih

theorem clearIntervalIfSet_nextId (m : Machine) :
    (clearIntervalIfSet m).nextId = m.nextId := by
  unfold clearIntervalIfSet
  split <;> rfl

theorem clearIntervalIfSet_now (m : Machine) :
    (clearIntervalIfSet m).now = m.now := by
  unfold clearIntervalIfSet
  split <;> rfl

/-- The timer scheduled by `blink`, in terms of the original machine. -/
theorem blink_shape {m : Machine} (h : LedInv m) (d : ℚ) (cb : Bool) :
    (Led.blink m d cb).timers = [⟨m.nextId, d, .blinkT cb⟩] ∧
    (Led.blink m d cb).state.interval = some m.nextId ∧
    (Led.blink m d cb).state.isRunning = true ∧
    (Led.blink m d cb).nextId = m.nextId + 1 := by
  obtain ⟨ht, hs, hn⟩ := timers_clearIntervalIfSet h
  have e1 : (Led.blink m d cb).timers
      = (clearIntervalIfSet m).timers ++ [⟨(clearIntervalIfSet m).nextId, d, .blinkT cb⟩] := rfl
  have e2 : (Led.blink m d cb).nextId = (clearIntervalIfSet m).nextId + 1 := rfl
  refine ⟨?_, ?_, rfl, ?_⟩
  · rw [e1, ht, clearIntervalIfSet_nextId]
    rfl
  · show some (clearIntervalIfSet m).nextId = some m.nextId
    rw [clearIntervalIfSet_nextId]
  · rw [e2, clearIntervalIfSet_nextId]

/-- The timer scheduled by `animate`, in terms of the original machine. -/
theorem animate_shape {m : Machine} (h : LedInv m) (dur : ℚ) (body : AnimBody) :
    (Led.animate m dur body).timers
      = [⟨m.nextId, 10, .animT m.now (if dur = 0 then 1000 else dur) body⟩] ∧
    (Led.animate m dur body).state.interval = some m.nextId ∧
    (Led.animate m dur body).state.isRunning = true ∧
    (Led.animate m dur body).nextId = m.nextId + 1 := by
  obtain ⟨ht, hs, hn⟩ := timers_clearIntervalIfSet h
  have e1 : (Led.animate m dur body).timers
      = (clearIntervalIfSet m).timers
        ++ [⟨(clearIntervalIfSet m).nextId, 10,
             .animT m.now (if dur = 0 then 1000 else dur) body⟩] := rfl
  have e2 : (Led.animate m dur body).nextId = (clearIntervalIfSet m).nextId + 1 := rfl
  refine ⟨?_, ?_, rfl, ?_⟩
  · rw [e1, ht, clearIntervalIfSet_nextId]
    rfl
  · show some (clearIntervalIfSet m).nextId = some m.nextId
    rw [clearIntervalIfSet_nextId]
  · rw [e2, clearIntervalIfSet_nextId]

theorem progressOf_eq_min (l d : ℚ) : progressOf l d = min (l / d) 1 := by
  unfold progressOf
  by_cases h : l / d > 1
  · rw [if_pos h, min_eq_right h.le]
  · rw [if_neg h, min_eq_left (not_lt.mp h)]

theorem progressOf_le_one (l d : ℚ) : progressOf l d ≤ 1 := by
  rw [progressOf_eq_min]
  exact min_le_right _ _

theorem progressOf_eq_one {l d : ℚ} (hd : 0 < d) (hl : d ≤ l) :
    progressOf l d = 1 := by
  rw [progressOf_eq_min, min_eq_right]
  rw [le_div_iff₀ hd]
  linarith

theorem constrain_mem {v l h : ℚ} (hlh : l ≤ h) :
    l ≤ constrain v l h ∧ constrain v l h ≤ h := by
  unfold constrain
  by_cases h1 : v < l
  · rw [if_pos h1]
    exact ⟨le_refl l, hlh⟩
  · rw [if_neg h1]
    by_cases h2 : v > h
    · rw [if_pos h2]
      exact ⟨hlh, le_refl h⟩
    · rw [if_neg h2]
      exact ⟨not_lt.mp h1, not_lt.mp h2⟩

/-- `Int.bmod` into `[-2^31, 2^31)` is the identity on `[0, 2^31)`. -/
theorem bmod_small {x : ℤ} (h0 : 0 ≤ x) (h1 : x < 2 ^ 31) :
    Int.bmod x (2 ^ 32) = x := by
  unfold Int.bmod
  have hmod : x % ((2 ^ 32 : ℕ) : ℤ) = x := by
    apply Int.emod_eq_of_lt h0
    push_cast
    linarith
  rw [hmod, if_pos]
  push_cast
  linarith

/-- On a nonnegative rational bounded by an int32-range natural, `ToInt32`
is just the floor, and stays within the bound. -/
theorem jsToInt32_of_nonneg_le {q : ℚ} {n : ℕ} (h0 : 0 ≤ q) (hq : q ≤ (n : ℚ))
    (hn : n < 2 ^ 31) :
    jsToInt32 q = Int.floor q ∧ 0 ≤ Int.floor q ∧ Int.floor q ≤ (n : ℤ) := by
  have hfl0 : 0 ≤ Int.floor q := Int.floor_nonneg.mpr h0
  have hfln : Int.floor q ≤ (n : ℤ) := by
    have := Int.floor_le_floor hq
    rwa [Int.floor_natCast] at this
  refine ⟨?_, hfl0, hfln⟩
  unfold jsToInt32 truncQ
  rw [if_neg (not_lt.mpr h0)]
  apply bmod_small hfl0
  have hcast : (n : ℤ) < 2 ^ 31 := by exact_mod_cast hn
  linarith

/-- The value `write()` hands to the provider is an integer in
`[LOW, HIGH] = [0, HIGH]`, whatever the stored state value is (sink or
source drive). -/
theorem writeValue_spec {m : Machine} (hh : m.high < 2 ^ 31) :
    ∃ k : ℤ, writeValue m = (k : ℚ) ∧ 0 ≤ k ∧ k ≤ (m.high : ℤ) := by
  have hcon := constrain_mem (v := m.state.value) (l := 0) (h := (m.high : ℚ))
    (by positivity)
  set v0 := constrain m.state.value 0 (m.high : ℚ) with hv0
  have hv : 0 ≤ (if m.state.sink then (m.high : ℚ) - v0 else v0) ∧
      (if m.state.sink then (m.high : ℚ) - v0 else v0) ≤ (m.high : ℚ) := by
    by_cases hs : m.state.sink
    · simp only [hs, if_true]
      constructor
      · linarith [hcon.2]
      · linarith [hcon.1]
    · simp only [hs, if_false]
      exact hcon
  obtain ⟨he, h0, h1⟩ := jsToInt32_of_nonneg_le hv.1 hv.2 hh
  refine ⟨Int.floor (if m.state.sink then (m.high : ℚ) - v0 else v0), ?_, h0, h1⟩
  unfold writeValue
  rw [← hv0, ← he]

/-- `writeValue` only looks at the stored value, the sink flag and `HIGH`. -/
theorem writeValue_congr {a b : Machine} (hv : a.state.value = b.state.value)
    (hs : a.state.sink = b.state.sink) (hh : a.high = b.high) :
    writeValue a = writeValue b := by
  unfold writeValue
  rw [hv, hs, hh]

/-- `pulse`'s derived parameters only look at the stored value and `HIGH`. -/
theorem pulse_params_congr {a b : Machine} (hv : a.state.value = b.state.value)
    (hh : a.high = b.high) :
    Led.pulseTarget a = Led.pulseTarget b ∧
    Led.pulseDirection a = Led.pulseDirection b ∧
    Led.pulseUpdate a = Led.pulseUpdate b := by
  have h1 : Led.pulseTarget a = Led.pulseTarget b := by
    unfold Led.pulseTarget
    rw [hv, hh]
  refine ⟨h1, ?_, ?_⟩
  · unfold Led.pulseDirection
    rw [h1, hh]
  · unfold Led.pulseUpdate
    rw [h1, hv]

/-- `ToInt32` of a natural `HIGH` in int32 range is `HIGH` itself. -/
theorem jsToInt32_natCast {n : ℕ} (hn : n < 2 ^ 31) :
    jsToInt32 ((n : ℕ) : ℚ) = (n : ℤ) := by
  obtain ⟨he, h0, h1⟩ := jsToInt32_of_nonneg_le (q := ((n : ℕ) : ℚ)) (n := n)
    (by positivity) (le_refl _) hn
  rw [he, Int.floor_natCast]

/-- 32-bit xor of an int32-range natural with itself is 0. -/
theorem jsXor_self {n : ℕ} (hn : n < 2 ^ 31) : jsXor (n : ℤ) (n : ℤ) = 0 := by
  unfold jsXor
  have hmod : ((n : ℤ)).emod (2 ^ 32) = (n : ℤ) := by
    apply Int.emod_eq_of_lt (by positivity)
    have hcast : (n : ℤ) < 2 ^ 31 := by exact_mod_cast hn
    linarith
  have hx : Nat.xor n n = 0 := Nat.xor_self n
  rw [hmod, Int.toNat_natCast, hx]
  rfl

/-- The device-options mapping relevant to the `Led` class. -/
structure DeviceOpts where
  sink : Bool
deriving DecidableEq, Repr

/-- The canonical IO options produced by normalization for a digital pin. -/
structure IoOpts where
  pin : ℚ
deriving DecidableEq, Repr

/-- Errors a constructor call can surface. -/
inductive JsError where
  /-- A JavaScript `TypeError` (e.g. reading a property of `undefined`). -/
  | typeError
  /-- The spec's `InvalidParameterError`. -/
  | invalidParameter
deriving DecidableEq, Repr

/-- Modelled from the spec: `normalizeParams` of the util module
(`util/fn.js`), which is not among the sources.  Spec section 4.1: a
numeric pin argument is wrapped as `{pin: io}`, and `device` defaults to
an empty mapping (all option fields falsy) when omitted/undefined —
never null. -/
def normalizeParams (io : ℚ) (device : Option DeviceOpts) : IoOpts × DeviceOpts :=
  (⟨io⟩, device.getD ⟨false⟩)

/-- The `Led` constructor, called with a bare pin number `io` and an
optional `device` argument (`none` = the argument was omitted, i.e.
`undefined`).  `normalizeParams` runs first; provider resolution and
instantiation are external and modelled as succeeding, reporting the
optional PWM `resolution`.  The source then reads `device.sink` on the
*raw* `device` parameter (not on the normalized `deviceOpts`, which it
never uses); when `device` is `undefined` that property read throws a
`TypeError` and construction fails.  Otherwise `HIGH` is
`(1 << resolution) - 1` (`= 2^resolution - 1` within the int32 range)
when the provider reports a resolution, else 1. -/
def Led.construct (io : ℚ) (device : Option DeviceOpts) (resolution : Option ℕ) :
    Except JsError Machine :=
  let norm := normalizeParams io device
  match device with
  | none => .error .typeError
  | some d =>
    let high := match resolution with
      | some r => 2 ^ r - 1
      | none => 1
    .ok (initMachine high d.sink)

/-- C4: the claim says `new Led(14)` (device options omitted) succeeds with
`sink = false`, the device options defaulting to an empty mapping.  The
code instead reads `device.sink` on the raw `undefined` parameter and
throws a `TypeError`; supplying an explicit empty device-options object is
what yields the claimed outcome.  This is a slip in the code: its own doc
comment declares `@param {object} [device={}]` (optional, defaulting to
`{}`), and the normalized `deviceOpts` the constructor computes for that
purpose is never used. -/
theorem led_construct_undefined_device_throws :
    Led.construct 14 none none = .error .typeError ∧
    Led.construct 14 (some ⟨false⟩) none = .ok (initMachine 1 false) :=
  ⟨rfl, rfl⟩

/-- C1 counterexample: `fade(HIGH, 100)` on a fresh binary LED, after 11
ticks of the 10 ms animation timer (one past completion): the engine never
cancels the timer at `progress == 1`, so `complete` (and the user
callback) have fired twice, and the timer is still scheduled even though
the completion callback re-armed nothing. -/
theorem fade_complete_fires_twice :
    (fireTimer^[11] (Led.fade (initMachine 1 false) 1 100 true)).completeCount = 2 ∧
    (fireTimer^[11] (Led.fade (initMachine 1 false) 1 100 true)).callbackCount = 2 ∧
    (fireTimer^[11] (Led.fade (initMachine 1 false) 1 100 true)).timers ≠ [] := by
  decide

/-- C1 amended: once a fade's progress reaches 1, `complete` fires on that
tick and on *every* subsequent tick: completion does not cancel the timer,
so a completed plain fade keeps invoking both `step` and `complete` each
tick until `stop()` or a new animation clears the interval. -/
theorem fade_completed_tick_refires {m : Machine} {hid : ℕ} {d start dur p u : ℚ}
    {cb : Bool}
    (ht : m.timers = [⟨hid, d, .animT start dur (.fadeB p u cb)⟩])
    (hd : 0 < dur) (hl : dur ≤ m.now + d - start) :
    (fireTimer m).completeCount = m.completeCount + 1 ∧
    (fireTimer m).stepCount = m.stepCount + 1 ∧
    (fireTimer m).timers = m.timers := by
  have hprog : progressOf (m.now + d - start) dur = 1 := progressOf_eq_one hd hl
  have hf : fireTimer m = runTimer m ⟨hid, d, .animT start dur (.fadeB p u cb)⟩ := by
    unfold fireTimer
    rw [ht]
  rw [hf]
  simp only [runTimer, runStepFade, Led.write, runComplete]
  rw [hprog]
  cases cb with
  | false => simp [ht]
  | true => simp [ht]

/-- C1 witness: a binary LED fading to `HIGH` over 100 ms, delivered 9
ticks (90 ms); the 10th tick completes the fade. -/
theorem fade_completed_tick_refires_witness :
    (fireTimer (fireTimer^[9] (Led.fade (initMachine 1 false) 1 100 true))).completeCount
      = (fireTimer^[9] (Led.fade (initMachine 1 false) 1 100 true)).completeCount + 1 ∧
    (fireTimer (fireTimer^[9] (Led.fade (initMachine 1 false) 1 100 true))).stepCount
      = (fireTimer^[9] (Led.fade (initMachine 1 false) 1 100 true)).stepCount + 1 ∧
    (fireTimer (fireTimer^[9] (Led.fade (initMachine 1 false) 1 100 true))).timers
      = (fireTimer^[9] (Led.fade (initMachine 1 false) 1 100 true)).timers :=
  @fade_completed_tick_refires (fireTimer^[9] (Led.fade (initMachine 1 false) 1 100 true))
    0 10 0 100 0 1 true (by decide) (by decide) (by decide)

/-- C7: each animation tick computes `elapsed = now - start`,
`progress = min(elapsed / duration, 1)` (never exceeding 1), applies the
delta function (the identity default, as `fade`/`pulse` pass none) and
invokes `step` with that delta — for a fade, `step` stores
`previous + update * delta`. -/
theorem animate_tick_computation {m : Machine} {hid : ℕ} {d start dur p u : ℚ}
    {cb : Bool}
    (ht : m.timers = [⟨hid, d, .animT start dur (.fadeB p u cb)⟩]) :
    (∀ l dr : ℚ, progressOf l dr = min (l / dr) 1 ∧ progressOf l dr ≤ 1) ∧
    (fireTimer m).stepCount = m.stepCount + 1 ∧
    (fireTimer m).state.value = p + u * progressOf (m.now + d - start) dur := by
  refine ⟨fun l dr => ⟨progressOf_eq_min l dr, progressOf_le_one l dr⟩, ?_⟩
  have hf : fireTimer m = runTimer m ⟨hid, d, .animT start dur (.fadeB p u cb)⟩ := by
    unfold fireTimer
    rw [ht]
  rw [hf]
  simp only [runTimer, runStepFade, Led.write, runComplete]
  by_cases hp : progressOf (m.now + d - start) dur = 1
  · rw [hp]
    cases cb with
    | false => simp
    | true => simp
  · rw [if_neg hp]
    exact ⟨rfl, rfl⟩

/-- C7 witness: the third tick of a fade from 0 to HIGH = 1 over 100 ms. -/
theorem animate_tick_computation_witness :
    (∀ l dr : ℚ, progressOf l dr = min (l / dr) 1 ∧ progressOf l dr ≤ 1) ∧
    (fireTimer (fireTimer^[2] (Led.fade (initMachine 1 false) 1 100 true))).stepCount
      = (fireTimer^[2] (Led.fade (initMachine 1 false) 1 100 true)).stepCount + 1 ∧
    (fireTimer (fireTimer^[2] (Led.fade (initMachine 1 false) 1 100 true))).state.value
      = 0 + 1 * progressOf ((fireTimer^[2] (Led.fade (initMachine 1 false) 1 100 true)).now
          + 10 - 0) 100 :=
  @animate_tick_computation (fireTimer^[2] (Led.fade (initMachine 1 false) 1 100 true))
    0 10 0 100 0 1 true (by decide)

/-- C9: calling `stop()` when `isRunning` is false does not throw and
leaves the machine — value, direction, sink, mode, timer handle,
`isRunning`, scheduled timers, clock and provider history — entirely
unchanged. -/
theorem stop_noop_when_not_running {m : Machine} (hr : Reach m)
    (h : m.state.isRunning = false) : Led.stop m = m := by
  obtain ⟨hid, hor⟩ := inv_reach hr
  rcases hor with ⟨hi, hr2, htm⟩ | ⟨hh, t, hi, hrun, _, _⟩
  · have hclear : clearIntervalIfSet m = m := by
      unfold clearIntervalIfSet
      rw [hi]
    unfold Led.stop
    rw [hclear]
    cases m with
    | mk mh st tms ni nw ws sc cc cbc =>
      cases st with
      | mk sk ir v dr md iv => simp_all
  · rw [hrun] at h
    exact Bool.noConfusion h

/-- C9 witness: `stop()` on a freshly constructed, idle LED. -/
theorem stop_noop_when_not_running_witness :
    Led.stop (initMachine 1 false) = initMachine 1 false :=
  stop_noop_when_not_running (Reach.init 1 false) rfl

/-- C6: on every reachable machine at most one timer is scheduled, and
starting any new animation (`blink`, or `fade`/`pulse` through `animate`)
leaves exactly one scheduled timer whose fresh handle is strictly larger
than every previously scheduled timer's — the old timer was cancelled
first, so no tick of it can be delivered after the new animation starts. -/
theorem single_active_timer {m : Machine} (hr : Reach m) :
    m.timers.length ≤ 1 ∧
    (∀ d cb, ∀ t ∈ (Led.blink m d cb).timers, ∀ t2 ∈ m.timers, t2.id < t.id) ∧
    (∀ v tf cb, ∀ t ∈ (Led.fade m v tf cb).timers, ∀ t2 ∈ m.timers, t2.id < t.id) ∧
    (∀ tp cb, ∀ t ∈ (Led.pulse m tp cb).timers, ∀ t2 ∈ m.timers, t2.id < t.id) := by
  have hinv := inv_reach hr
  have hid := hinv.1
  refine ⟨?_, ?_, ?_, ?_⟩
  · rcases hinv.2 with ⟨_, _, htm⟩ | ⟨_, t, _, _, htm, _⟩ <;> rw [htm] <;> simp
  · intro d cb t htt t2 ht2
    rw [(blink_shape hinv d cb).1] at htt
    simp at htt
    subst htt
    exact hid t2 ht2
  · intro v tf cb t htt t2 ht2
    rw [show (Led.fade m v tf cb).timers
        = (Led.animate m tf (.fadeB m.state.value (v - m.state.value) cb)).timers from rfl,
      (animate_shape hinv tf _).1] at htt
    simp at htt
    subst htt
    exact hid t2 ht2
  · intro tp cb t htt t2 ht2
    rw [show (Led.pulse m tp cb).timers
        = (Led.animate m tp
            (.pulseB (Led.pulseUpdate m) (Led.pulseDirection m) tp cb)).timers from rfl,
      (animate_shape hinv tp _).1] at htt
    simp at htt
    subst htt
    exact hid t2 ht2

/-- C6 witness: the single-timer properties instantiated on a machine in
the middle of a blink animation. -/
theorem single_active_timer_witness :
    (Led.blink (initMachine 1 false) 50 false).timers.length ≤ 1 ∧
    (∀ d cb, ∀ t ∈ (Led.blink (Led.blink (initMachine 1 false) 50 false) d cb).timers,
      ∀ t2 ∈ (Led.blink (initMachine 1 false) 50 false).timers, t2.id < t.id) ∧
    (∀ v tf cb, ∀ t ∈ (Led.fade (Led.blink (initMachine 1 false) 50 false) v tf cb).timers,
      ∀ t2 ∈ (Led.blink (initMachine 1 false) 50 false).timers, t2.id < t.id) ∧
    (∀ tp cb, ∀ t ∈ (Led.pulse (Led.blink (initMachine 1 false) 50 false) tp cb).timers,
      ∀ t2 ∈ (Led.blink (initMachine 1 false) 50 false).timers, t2.id < t.id) :=
  single_active_timer (Reach.blink_ 50 false (Reach.init 1 false))

/-- C5 counterexample: `blink(0)` (and `blink(-5)`) on a fresh LED raise
nothing — the source performs no duration validation — and schedule a
repeating timer with that exact zero/negative interval. -/
theorem blink_zero_duration_creates_timer :
    (Led.blink (initMachine 1 false) 0 false).timers = [⟨0, 0, .blinkT false⟩] ∧
    (Led.blink (initMachine 1 false) 0 false).state.isRunning = true ∧
    (Led.blink (initMachine 1 false) (-5) false).timers = [⟨0, -5, .blinkT false⟩] := by
  decide

/-- C5 amended: `blink` performs no validation of `duration`: every
numeric duration, zero and negative included, is handed to
`timer.setInterval` unchanged, scheduling a timer with that interval and
marking the device running; no `InvalidParameterError` exists on this
path. -/
theorem blink_passes_duration_unvalidated {m : Machine} (hr : Reach m) (d : ℚ)
    (cb : Bool) :
    (Led.blink m d cb).timers = [⟨m.nextId, d, .blinkT cb⟩] ∧
    (Led.blink m d cb).state.interval = some m.nextId ∧
    (Led.blink m d cb).state.isRunning = true := by
  obtain ⟨h1, h2, h3, _⟩ := blink_shape (inv_reach hr) d cb
  exact ⟨h1, h2, h3⟩

/-- C5 witness: `blink(0)` on a fresh LED. -/
theorem blink_passes_duration_unvalidated_witness :
    (Led.blink (initMachine 1 false) 0 false).timers = [⟨0, 0, .blinkT false⟩] ∧
    (Led.blink (initMachine 1 false) 0 false).state.interval = some 0 ∧
    (Led.blink (initMachine 1 false) 0 false).state.isRunning = true :=
  blink_passes_duration_unvalidated (Reach.init 1 false) 0 false

theorem clearIntervalIfSet_writes (m : Machine) :
    (clearIntervalIfSet m).writes = m.writes := by
  unfold clearIntervalIfSet
  split <;> rfl

theorem clearIntervalIfSet_state (m : Machine) :
    (clearIntervalIfSet m).state = m.state := by
  unfold clearIntervalIfSet
  split <;> rfl

theorem clearIntervalIfSet_high (m : Machine) :
    (clearIntervalIfSet m).high = m.high := by
  unfold clearIntervalIfSet
  split <;> rfl

theorem animate_writes (m : Machine) (dur : ℚ) (body : AnimBody) :
    (Led.animate m dur body).writes = m.writes := by
  show (clearIntervalIfSet m).writes = m.writes
  exact clearIntervalIfSet_writes m

theorem animate_state_value (m : Machine) (dur : ℚ) (body : AnimBody) :
    (Led.animate m dur body).state.value = m.state.value := by
  show (clearIntervalIfSet m).state.value = m.state.value
  rw [clearIntervalIfSet_state]

theorem animate_state_sink (m : Machine) (dur : ℚ) (body : AnimBody) :
    (Led.animate m dur body).state.sink = m.state.sink := by
  show (clearIntervalIfSet m).state.sink = m.state.sink
  rw [clearIntervalIfSet_state]

theorem animate_high (m : Machine) (dur : ℚ) (body : AnimBody) :
    (Led.animate m dur body).high = m.high := by
  show (clearIntervalIfSet m).high = m.high
  exact clearIntervalIfSet_high m

/-- C3 counterexample: `fade(2, 100)` on a binary LED (`HIGH = 1`) run to
completion: `write()` has run on every tick, yet the stored state value is
2, strictly above `HIGH` — `write()` clamps only the provider copy, never
the stored state. -/
theorem state_value_exceeds_high_after_write :
    (fireTimer^[10] (Led.fade (initMachine 1 false) 2 100 false)).state.value = 2 ∧
    (fireTimer^[10] (Led.fade (initMachine 1 false) 2 100 false)).high = 1 ∧
    (fireTimer^[10] (Led.fade (initMachine 1 false) 2 100 false)).writes ≠ [] ∧
    ¬((fireTimer^[10] (Led.fade (initMachine 1 false) 2 100 false)).state.value
        ≤ ((fireTimer^[10] (Led.fade (initMachine 1 false) 2 100 false)).high : ℚ)) := by
  decide

/-- C3 amended: after `write()` the value most recently handed to the
provider lies in `[LOW, HIGH]`, but `write()` leaves the stored device
state untouched, so the stored value itself may lie outside the range
(e.g. after fading toward a target beyond `HIGH`). -/
theorem write_clamps_provider_value_not_state {m : Machine} (hh : m.high < 2 ^ 31) :
    (Led.write m).state = m.state ∧
    ∃ q : ℚ, (Led.write m).writes = q :: m.writes ∧ 0 ≤ q ∧ q ≤ (m.high : ℚ) := by
  refine ⟨rfl, ?_⟩
  obtain ⟨k, hk, h0, h1⟩ := writeValue_spec hh
  refine ⟨writeValue m, rfl, ?_, ?_⟩
  · rw [hk]
    exact_mod_cast h0
  · rw [hk]
    exact_mod_cast h1

/-- C3 witness: `write()` on a sink-driven binary LED whose stored value
is 5 (set by `brightness(5)`). -/
theorem write_clamps_provider_value_not_state_witness :
    (Led.write (Led.brightness (initMachine 1 true) 5)).state
      = (Led.brightness (initMachine 1 true) 5).state ∧
    ∃ q : ℚ, (Led.write (Led.brightness (initMachine 1 true) 5)).writes
        = q :: (Led.brightness (initMachine 1 true) 5).writes ∧ 0 ≤ q ∧
        q ≤ (((Led.brightness (initMachine 1 true) 5).high : ℕ) : ℚ) :=
  @write_clamps_provider_value_not_state (Led.brightness (initMachine 1 true) 5) (by decide)

/-- C10: whatever rational the stored state value is, `write()` hands the
provider an integer (the `| 0` truncation) lying in `[LOW, HIGH]` — for
sink devices too, after the `HIGH - value` inversion. -/
theorem write_hands_provider_integer {m : Machine} (hh : m.high < 2 ^ 31) :
    ∃ k : ℤ, (Led.write m).writes = ((k : ℤ) : ℚ) :: m.writes ∧ 0 ≤ k ∧
      k ≤ (m.high : ℤ) := by
  obtain ⟨k, hk, h0, h1⟩ := writeValue_spec hh
  refine ⟨k, ?_, h0, h1⟩
  rw [show (Led.write m).writes = writeValue m :: m.writes from rfl, hk]

/-- C10 witness: a `write()` while a PWM fade (`HIGH = 255`) is mid-flight
with the fractional stored value 25.5. -/
theorem write_hands_provider_integer_witness :
    ∃ k : ℤ, (Led.write (fireTimer (Led.fade (initMachine 255 false) 255 100 false))).writes
        = ((k : ℤ) : ℚ) :: (fireTimer (Led.fade (initMachine 255 false) 255 100 false)).writes ∧
      0 ≤ k ∧ k ≤ (((fireTimer (Led.fade (initMachine 255 false) 255 100 false)).high : ℕ) : ℤ) :=
  @write_hands_provider_integer (fireTimer (Led.fade (initMachine 255 false) 255 100 false))
    (by decide)

/-- C2 counterexample: on a sink-wired binary LED, `brightness(5)` hands
the provider the raw 5 — no clamp, no sink inversion — while the `write()`
funnel on the same stored value would hand it `HIGH - constrain(5,0,1) = 0`.
`brightness` does not go through `write()`. -/
theorem brightness_bypasses_write :
    (Led.brightness (initMachine 1 true) 5).writes = [5] ∧
    (Led.write { initMachine 1 true with state.value := 5 }).writes = [0] ∧
    (5 : ℚ) ≠ (0 : ℚ) := by
  decide

theorem toggle_writes (x : Machine) :
    (Led.toggle x).writes = writeValue (Led.toggle x) :: x.writes := by
  unfold Led.toggle
  by_cases h : Led.isOn x = true
  · rw [if_pos h]
    rfl
  · rw [if_neg h]
    rfl

theorem runComplete_funnel (x : Machine) (b : AnimBody) :
    (runComplete x b).writes = x.writes ∧
    writeValue (runComplete x b) = writeValue x := by
  cases b with
  | fadeB p u cb =>
    cases cb with
    | false => exact ⟨rfl, rfl⟩
    | true => exact ⟨rfl, rfl⟩
  | pulseB u dir time cb =>
    cases cb with
    | false =>
      constructor
      · exact animate_writes { x with completeCount := x.completeCount + 1 } time
          (.pulseB (Led.pulseUpdate { x with completeCount := x.completeCount + 1 })
            (Led.pulseDirection { x with completeCount := x.completeCount + 1 }) time false)
      · exact writeValue_congr
          (animate_state_value { x with completeCount := x.completeCount + 1 } time
            (.pulseB (Led.pulseUpdate { x with completeCount := x.completeCount + 1 })
              (Led.pulseDirection { x with completeCount := x.completeCount + 1 }) time false))
          (animate_state_sink { x with completeCount := x.completeCount + 1 } time
            (.pulseB (Led.pulseUpdate { x with completeCount := x.completeCount + 1 })
              (Led.pulseDirection { x with completeCount := x.completeCount + 1 }) time false))
          (animate_high { x with completeCount := x.completeCount + 1 } time
            (.pulseB (Led.pulseUpdate { x with completeCount := x.completeCount + 1 })
              (Led.pulseDirection { x with completeCount := x.completeCount + 1 }) time false))
    | true =>
      constructor
      · exact animate_writes { x with completeCount := x.completeCount + 1 } time
          (.pulseB (Led.pulseUpdate { x with completeCount := x.completeCount + 1 })
            (Led.pulseDirection { x with completeCount := x.completeCount + 1 }) time true)
      · exact writeValue_congr
          (animate_state_value { x with completeCount := x.completeCount + 1 } time
            (.pulseB (Led.pulseUpdate { x with completeCount := x.completeCount + 1 })
              (Led.pulseDirection { x with completeCount := x.completeCount + 1 }) time true))
          (animate_state_sink { x with completeCount := x.completeCount + 1 } time
            (.pulseB (Led.pulseUpdate { x with completeCount := x.completeCount + 1 })
              (Led.pulseDirection { x with completeCount := x.completeCount + 1 }) time true))
          (animate_high { x with completeCount := x.completeCount + 1 } time
            (.pulseB (Led.pulseUpdate { x with completeCount := x.completeCount + 1 })
              (Led.pulseDirection { x with completeCount := x.completeCount + 1 }) time true))

theorem fireTimer_writes_funnel {m : Machine} {t : ActiveTimer}
    {rest : List ActiveTimer} (ht : m.timers = t :: rest) :
    (fireTimer m).writes = writeValue (fireTimer m) :: m.writes := by
  have hf : fireTimer m = runTimer m t := by
    unfold fireTimer
    rw [ht]
  rw [hf]
  obtain ⟨tid, tdelay, tprog⟩ := t
  cases tprog with
  | blinkT cb =>
    cases cb with
    | false => exact toggle_writes ({ m with now := m.now + tdelay })
    | true => exact toggle_writes ({ m with now := m.now + tdelay })
  | animT start dur body =>
    cases body with
    | fadeB p u cbk =>
      simp only [runTimer]
      split
      · rw [(runComplete_funnel _ _).1, (runComplete_funnel _ _).2]
        rfl
      · rfl
    | pulseB u dir time cbk =>
      simp only [runTimer]
      split
      · rw [(runComplete_funnel _ _).1, (runComplete_funnel _ _).2]
        rfl
      · rfl

/-- C2 amended: every path that hands a value to the provider funnels
through `write()` — `on`, `off`, `toggle`, and each animation tick
(`blink`'s toggle step, `fade`'s and `pulse`'s `step` closures) — emitting
exactly the clamped, sink-inverted, truncated `writeValue` of the
resulting state, with the single exception of `brightness`, which hands
its raw argument directly to the provider, bypassing `write()` and its
clamp and inversion. -/
theorem all_value_paths_funnel_write (m : Machine) (v : ℚ) {t : ActiveTimer}
    {rest : List ActiveTimer} (ht : m.timers = t :: rest) :
    (Led.on m).writes = writeValue (Led.on m) :: m.writes ∧
    (Led.off m).writes = writeValue (Led.off m) :: m.writes ∧
    (Led.toggle m).writes = writeValue (Led.toggle m) :: m.writes ∧
    (fireTimer m).writes = writeValue (fireTimer m) :: m.writes ∧
    (Led.brightness m v).writes = v :: m.writes :=
  ⟨rfl, rfl, toggle_writes m, fireTimer_writes_funnel ht, rfl⟩

/-- C2 witness: the funnel properties on a machine in the middle of a
blink animation, with `brightness(7)`. -/
theorem all_value_paths_funnel_write_witness :
    (Led.on (Led.blink (initMachine 1 false) 50 false)).writes
      = writeValue (Led.on (Led.blink (initMachine 1 false) 50 false))
        :: (Led.blink (initMachine 1 false) 50 false).writes ∧
    (Led.off (Led.blink (initMachine 1 false) 50 false)).writes
      = writeValue (Led.off (Led.blink (initMachine 1 false) 50 false))
        :: (Led.blink (initMachine 1 false) 50 false).writes ∧
    (Led.toggle (Led.blink (initMachine 1 false) 50 false)).writes
      = writeValue (Led.toggle (Led.blink (initMachine 1 false) 50 false))
        :: (Led.blink (initMachine 1 false) 50 false).writes ∧
    (fireTimer (Led.blink (initMachine 1 false) 50 false)).writes
      = writeValue (fireTimer (Led.blink (initMachine 1 false) 50 false))
        :: (Led.blink (initMachine 1 false) 50 false).writes ∧
    (Led.brightness (Led.blink (initMachine 1 false) 50 false) 7).writes
      = 7 :: (Led.blink (initMachine 1 false) 50 false).writes :=
  @all_value_paths_funnel_write (Led.blink (initMachine 1 false) 50 false) 7
    ⟨0, 50, .blinkT false⟩ [] (by decide)

theorem clearIntervalIfSet_completeCount (m : Machine) :
    (clearIntervalIfSet m).completeCount = m.completeCount := by
  unfold clearIntervalIfSet
  split <;> rfl

theorem clearIntervalIfSet_callbackCount (m : Machine) :
    (clearIntervalIfSet m).callbackCount = m.callbackCount := by
  unfold clearIntervalIfSet
  split <;> rfl

theorem animate_completeCount (m : Machine) (dur : ℚ) (body : AnimBody) :
    (Led.animate m dur body).completeCount = m.completeCount := by
  show (clearIntervalIfSet m).completeCount = m.completeCount
  exact clearIntervalIfSet_completeCount m

theorem animate_callbackCount (m : Machine) (dur : ℚ) (body : AnimBody) :
    (Led.animate m dur body).callbackCount = m.callbackCount := by
  show (clearIntervalIfSet m).callbackCount = m.callbackCount
  exact clearIntervalIfSet_callbackCount m

/-- What `pulse`'s `complete` closure does: bump the complete counter,
re-invoke `pulse` with the same `time` (re-arming `animate`, whose fresh
timer starts at the current clock and carries the pulse parameters
re-derived from the current value), then fire the user callback. -/
theorem runComplete_pulse_rearm (x : Machine) (u0 : ℚ) (d0 : ℤ) (time : ℚ)
    (cb : Bool) (hx : LedInv x) :
    (runComplete x (.pulseB u0 d0 time cb)).timers
      = [⟨x.nextId, 10, .animT x.now (if time = 0 then 1000 else time)
          (.pulseB (Led.pulseUpdate x) (Led.pulseDirection x) time cb)⟩] ∧
    (runComplete x (.pulseB u0 d0 time cb)).state.value = x.state.value ∧
    (runComplete x (.pulseB u0 d0 time cb)).completeCount = x.completeCount + 1 ∧
    (cb = true →
      (runComplete x (.pulseB u0 d0 time cb)).callbackCount = x.callbackCount + 1) := by
  have hmc : LedInv ({ x with completeCount := x.completeCount + 1 } : Machine) :=
    inv_of_eq rfl rfl rfl rfl hx
  obtain ⟨hT, hI, hR, hN⟩ := animate_shape hmc time
    (.pulseB (Led.pulseUpdate { x with completeCount := x.completeCount + 1 })
      (Led.pulseDirection { x with completeCount := x.completeCount + 1 }) time cb)
  cases cb with
  | false =>
    refine ⟨hT, ?_, ?_, fun h => Bool.noConfusion h⟩
    · exact animate_state_value { x with completeCount := x.completeCount + 1 } time
        (.pulseB (Led.pulseUpdate { x with completeCount := x.completeCount + 1 })
          (Led.pulseDirection { x with completeCount := x.completeCount + 1 }) time false)
    · exact animate_completeCount { x with completeCount := x.completeCount + 1 } time
        (.pulseB (Led.pulseUpdate { x with completeCount := x.completeCount + 1 })
          (Led.pulseDirection { x with completeCount := x.completeCount + 1 }) time false)
  | true =>
    refine ⟨hT, ?_, ?_, fun _ => ?_⟩
    · exact animate_state_value { x with completeCount := x.completeCount + 1 } time
        (.pulseB (Led.pulseUpdate { x with completeCount := x.completeCount + 1 })
          (Led.pulseDirection { x with completeCount := x.completeCount + 1 }) time true)
    · exact animate_completeCount { x with completeCount := x.completeCount + 1 } time
        (.pulseB (Led.pulseUpdate { x with completeCount := x.completeCount + 1 })
          (Led.pulseDirection { x with completeCount := x.completeCount + 1 }) time true)
    · show (Led.animate { x with completeCount := x.completeCount + 1 } time
          (.pulseB (Led.pulseUpdate { x with completeCount := x.completeCount + 1 })
            (Led.pulseDirection { x with completeCount := x.completeCount + 1 }) time
            true)).callbackCount + 1 = x.callbackCount + 1
      rw [animate_callbackCount]

theorem runStepPulse_value (x : Machine) (u : ℚ) (dd : ℤ) (delta : ℚ) :
    (runStepPulse x u dd delta).state.value
      = if dd = -1
        then ((jsXor (jsToInt32 (u * delta)) (jsToInt32 ((x.high : ℕ) : ℚ)) : ℤ) : ℚ)
        else u * delta := rfl

theorem pulseDirection_small (hN : ℕ) (v : ℚ) :
    Led.pulseDirection ({ initMachine hN false with state.value := v } : Machine)
      = if pulseTargetV v ((hN : ℕ) : ℚ) = ((hN : ℕ) : ℚ) then 1 else -1 := rfl

/-- C8: `pulse` fades toward the extreme opposite the current value
(`HIGH` from 0 or any intermediate value, 0 from `HIGH`); when the fade
completes, `complete` re-invokes `pulse` with the same `time` — re-arming
a fresh pulse animation starting at the current clock — and fires the
user callback, so the value keeps oscillating between the extremes with a
callback on each direction change: completing an upward pulse leaves
`value = HIGH` and re-arms downward (direction −1), completing a downward
pulse leaves `value = 0` and re-arms upward (direction 1). -/
theorem pulse_completion_oscillates {m : Machine} {hid : ℕ} {d start dur upd time : ℚ}
    {dir : ℤ} {cb : Bool}
    (hr : Reach m)
    (ht : m.timers = [⟨hid, d, .animT start dur (.pulseB upd dir time cb)⟩])
    (hd : 0 < dur) (hl : dur ≤ m.now + d - start)
    (hhi : 1 ≤ m.high) (hh32 : m.high < 2 ^ 31) :
    (∀ h : ℚ, pulseTargetV 0 h = h) ∧
    (∀ v h : ℚ, v ≠ 0 → pulseTargetV v h = if v = h then 0 else h) ∧
    (fireTimer m).completeCount = m.completeCount + 1 ∧
    (cb = true → (fireTimer m).callbackCount = m.callbackCount + 1) ∧
    (∃ u2 : ℚ, ∃ d2 : ℤ,
      (fireTimer m).timers = [⟨m.nextId, 10,
        .animT (m.now + d) (if time = 0 then 1000 else time) (.pulseB u2 d2 time cb)⟩] ∧
      (dir = 1 → upd = (m.high : ℚ) →
        (fireTimer m).state.value = (m.high : ℚ) ∧ d2 = -1) ∧
      (dir = -1 → upd = (m.high : ℚ) →
        (fireTimer m).state.value = 0 ∧ d2 = 1)) := by
  have hprog : progressOf (m.now + d - start) dur = 1 := progressOf_eq_one hd hl
  have hf : fireTimer m = runTimer m ⟨hid, d, .animT start dur (.pulseB upd dir time cb)⟩ := by
    unfold fireTimer
    rw [ht]
  have hred : fireTimer m
      = runComplete (runStepPulse
            { m with now := m.now + d, stepCount := m.stepCount + 1 } upd dir 1)
          (.pulseB upd dir time cb) := by
    rw [hf]
    simp only [runTimer]
    rw [hprog]
    simp
  have hinvMS : LedInv (runStepPulse
      { m with now := m.now + d, stepCount := m.stepCount + 1 } upd dir 1) :=
    @inv_of_eq m (runStepPulse
      { m with now := m.now + d, stepCount := m.stepCount + 1 } upd dir 1)
      rfl rfl rfl rfl (inv_reach hr)
  obtain ⟨hT, hV, hC, hCB⟩ := runComplete_pulse_rearm
    (runStepPulse { m with now := m.now + d, stepCount := m.stepCount + 1 } upd dir 1)
    upd dir time cb hinvMS
  have hQ : (0 : ℚ) < ((m.high : ℕ) : ℚ) := by exact_mod_cast hhi
  refine ⟨?_, ?_, ?_, ?_, ?_⟩
  · intro h
    simp [pulseTargetV]
  · intro v h hv
    simp [pulseTargetV, hv]
  · rw [hred, hC]
    rfl
  · intro hcb
    rw [hred, hCB hcb]
    rfl
  · refine ⟨Led.pulseUpdate (runStepPulse
        { m with now := m.now + d, stepCount := m.stepCount + 1 } upd dir 1),
      Led.pulseDirection (runStepPulse
        { m with now := m.now + d, stepCount := m.stepCount + 1 } upd dir 1),
      ?_, ?_, ?_⟩
    · rw [hred]
      exact hT
    · intro hdir hupd
      subst hdir
      have hVal : (runStepPulse
          { m with now := m.now + d, stepCount := m.stepCount + 1 } upd 1 1).state.value
          = (m.high : ℚ) := by
        rw [runStepPulse_value, if_neg (by decide : ¬((1 : ℤ) = -1)), mul_one, hupd]
      constructor
      · rw [hred, hV, hVal]
      · have hsm : Led.pulseDirection (runStepPulse
            { m with now := m.now + d, stepCount := m.stepCount + 1 } upd 1 1)
            = Led.pulseDirection ({ initMachine m.high false with
                state.value := ((m.high : ℕ) : ℚ) } : Machine) :=
          (@pulse_params_congr
            (runStepPulse
              { m with now := m.now + d, stepCount := m.stepCount + 1 } upd 1 1)
            ({ initMachine m.high false with state.value := ((m.high : ℕ) : ℚ) } : Machine)
            (by rw [hVal]) rfl).2.1
        have htv : pulseTargetV ((m.high : ℕ) : ℚ) ((m.high : ℕ) : ℚ) = 0 := by
          unfold pulseTargetV
          rw [if_pos hQ.ne', if_pos rfl]
        rw [hsm, pulseDirection_small, htv, if_neg (Ne.symm hQ.ne')]
    · intro hdir hupd
      subst hdir
      have hVal : (runStepPulse
          { m with now := m.now + d, stepCount := m.stepCount + 1 } upd (-1) 1).state.value
          = 0 := by
        rw [runStepPulse_value, if_pos rfl, mul_one, hupd,
          show ({ m with now := m.now + d, stepCount := m.stepCount + 1 } : Machine).high
            = m.high from rfl,
          jsToInt32_natCast hh32, jsXor_self hh32]
        norm_num
      constructor
      · rw [hred, hV, hVal]
      · have hsm : Led.pulseDirection (runStepPulse
            { m with now := m.now + d, stepCount := m.stepCount + 1 } upd (-1) 1)
            = Led.pulseDirection ({ initMachine m.high false with
                state.value := (0 : ℚ) } : Machine) :=
          (@pulse_params_congr
            (runStepPulse
              { m with now := m.now + d, stepCount := m.stepCount + 1 } upd (-1) 1)
            ({ initMachine m.high false with state.value := (0 : ℚ) } : Machine)
            (by rw [hVal]) rfl).2.1
        have htv : pulseTargetV 0 ((m.high : ℕ) : ℚ) = ((m.high : ℕ) : ℚ) := by
          unfold pulseTargetV
          rw [if_neg]
          simp
        rw [hsm, pulseDirection_small, htv, if_pos rfl]

theorem reach_iterate {m : Machine} (h : Reach m) (n : ℕ) :
    Reach (fireTimer^[n] m) := by
  induction n with
  | zero => exact h
  | succ k ih =>
    rw [Function.iterate_succ_apply']
    exact Reach.tick ih

/-- C8 witness: `pulse(100)` on a fresh binary LED, delivered 9 ticks
(90 ms); the 10th tick completes the upward fade and re-arms downward. -/
theorem pulse_completion_oscillates_witness :
    (∀ h : ℚ, pulseTargetV 0 h = h) ∧
    (∀ v h : ℚ, v ≠ 0 → pulseTargetV v h = if v = h then 0 else h) ∧
    (fireTimer (fireTimer^[9] (Led.pulse (initMachine 1 false) 100 true))).completeCount
      = (fireTimer^[9] (Led.pulse (initMachine 1 false) 100 true)).completeCount + 1 ∧
    (true = true →
      (fireTimer (fireTimer^[9] (Led.pulse (initMachine 1 false) 100 true))).callbackCount
        = (fireTimer^[9] (Led.pulse (initMachine 1 false) 100 true)).callbackCount + 1) ∧
    (∃ u2 : ℚ, ∃ d2 : ℤ,
      (fireTimer (fireTimer^[9] (Led.pulse (initMachine 1 false) 100 true))).timers
        = [⟨(fireTimer^[9] (Led.pulse (initMachine 1 false) 100 true)).nextId, 10,
            .animT ((fireTimer^[9] (Led.pulse (initMachine 1 false) 100 true)).now + 10)
              (if (100 : ℚ) = 0 then 1000 else 100) (.pulseB u2 d2 100 true)⟩] ∧
      ((1 : ℤ) = 1 →
        (1 : ℚ) = ((fireTimer^[9] (Led.pulse (initMachine 1 false) 100 true)).high : ℚ) →
        (fireTimer (fireTimer^[9] (Led.pulse (initMachine 1 false) 100 true))).state.value
          = ((fireTimer^[9] (Led.pulse (initMachine 1 false) 100 true)).high : ℚ) ∧
        d2 = -1) ∧
      ((1 : ℤ) = -1 →
        (1 : ℚ) = ((fireTimer^[9] (Led.pulse (initMachine 1 false) 100 true)).high : ℚ) →
        (fireTimer (fireTimer^[9] (Led.pulse (initMachine 1 false) 100 true))).state.value
          = 0 ∧
        d2 = 1)) :=
  @pulse_completion_oscillates
    (fireTimer^[9] (Led.pulse (initMachine 1 false) 100 true))
    0 10 0 100 1 100 1 true
    (reach_iterate (Reach.pulse_ 100 true (Reach.init 1 false)) 9)
    (by decide) (by decide) (by decide) (by decide) (by decide)
